import Mathlib

/-!
Verification of the product-hunt ideator pipeline
(`producthunt_ideator/web/api/ideator/controller.py` and `views.py`).

The pipeline's pure core is embedded shallowly: network responses are
modelled as explicit input values (an HTTP response is a status plus the
parts of the body the code reads), the event-sending context `ctx` is
modelled by returning the list of events a step sends, and the
`while` pagination loop is modelled by structural recursion over the
sequence of page responses the catalog server would produce.
-/

namespace Ideator

/-- One proposal of an analysis (`schema.Proposal`). -/
structure Proposal where
  title : String
  description : String
  deriving DecidableEq, Repr

/-- The structured LLM analysis result (`schema.Analysis`). -/
structure Analysis where
  strengths : String
  weaknesses : String
  proposals : List Proposal
  deriving DecidableEq, Repr

/-- One raw post node of the catalog GraphQL response, holding the fields
requested by `base_query` in `IdeatorWorkflow._fetch_product_hunt_data`.
`topics` is the flattened list `edges[i].node.name` that
`Product.__init__` extracts from the nested `topics` dict. -/
structure PostNode where
  id : String
  name : String
  tagline : String
  description : String
  votesCount : Int
  createdAt : String
  featuredAt : Option String
  website : String
  url : String
  topics : List String
  deriving DecidableEq, Repr

/-- The `Product` class of controller.py after `__init__`: note that the
`id` argument is accepted but not stored, `featured` is the truthiness of
`featuredAt`, and the derived fields `long_description` and
`og_image_url` start out as the empty string. -/
structure Product where
  name : String
  tagline : String
  description : String
  votes_count : Int
  created_at : String
  featured : Bool
  website : String
  url : String
  topics : List String
  long_description : String
  og_image_url : String
  deriving DecidableEq, Repr

/-- Constructor `Product.__init__` applied to one raw post node.  Python truthiness:
`bool(featuredAt)` is `False` both for `None` and for the empty string. -/
def Product.ofPost (p : PostNode) : Product where
  name := p.name
  tagline := p.tagline
  description := p.description
  votes_count := p.votesCount
  created_at := p.createdAt
  featured := match p.featuredAt with
    | none => false
    | some s => s != ""
  website := p.website
  url := p.url
  topics := p.topics
  long_description := ""
  og_image_url := ""

/-- The payload of a `FinalResultEvent` (controller.py lines 190-192). -/
structure FinalResultEvent where
  product : Product
  proposal : Analysis
  deriving DecidableEq, Repr

/-! ## Token exchange (`IdeatorWorkflow._get_producthunt_token`) -/

/-- The part of the token-exchange HTTP response the code reads. -/
structure TokenResponse where
  status : Nat
  text : String
  access_token : Option String
  deriving DecidableEq, Repr

/-- Method `IdeatorWorkflow._get_producthunt_token`: raise unless the exchange
returned HTTP 200, otherwise read `access_token` from the JSON body
(`.get` yields `None` when absent, modelled as `Option`). -/
def get_producthunt_token (response : TokenResponse) : Except String (Option String) :=
  if response.status ≠ 200 then
    .error ("Failed to obtain access token: " ++ toString response.status ++ ", " ++ response.text)
  else
    .ok response.access_token

/-! ## Fetch stage (`IdeatorWorkflow._fetch_product_hunt_data`) -/

/-- The `pageInfo` object of one catalog query response. -/
structure PageInfo where
  hasNextPage : Bool
  endCursor : String
  deriving DecidableEq, Repr

/-- One catalog query HTTP response: the status plus the parts of
`response.json()["data"]["posts"]` the code reads. -/
structure PageResponse where
  status : Nat
  nodes : List PostNode
  pageInfo : PageInfo
  deriving DecidableEq, Repr

/-- Stable insertion of a post in front of the first strictly
lower-voted entry: an element is placed after every element it does not
strictly beat, so earlier elements stay in front of equal-voted later
ones. -/
def insertDesc (x : PostNode) : List PostNode → List PostNode
  | [] => [x]
  | y :: ys =>
    if x.votesCount < y.votesCount then y :: insertDesc x ys else x :: y :: ys

/-- Python `sorted(all_posts, key=lambda x: x["votesCount"], reverse=True)`:
a stable sort, descending by vote count.  A stable sort's output is
uniquely determined by the comparator and the input order, so this stable
insertion sort computes exactly the list Python's stable sort returns. -/
def sortByVotesDesc : List PostNode → List PostNode
  | [] => []
  | x :: xs => insertDesc x (sortByVotesDesc xs)

/-- The pagination `while` loop of `_fetch_product_hunt_data` (lines
285-306): while `has_next_page and len(all_posts) < post_limit`, request
the next page, raise on a non-200 status (the raised status is the error
value), otherwise append the page's nodes and continue with its
`pageInfo.hasNextPage`.  The remaining list of `pages` is the sequence of
responses the server would give to successive cursor requests; if it is
exhausted while the loop would still iterate, the model stops with the
nodes gathered so far. -/
def fetchPagesLoop (post_limit : Nat) :
    List PageResponse → List PostNode → Bool → Except Nat (List PostNode)
  | [], all_posts, _ => .ok all_posts
  | page :: rest, all_posts, has_next_page =>
    if has_next_page ∧ all_posts.length < post_limit then
      if page.status ≠ 200 then
        .error page.status
      else
        fetchPagesLoop post_limit rest (all_posts ++ page.nodes) page.pageInfo.hasNextPage
    else
      .ok all_posts

/-- The pages the loop actually requests: the consumed script prefix, in
request order.  A non-200 page is requested (and is then the last request
of the run, since the loop raises). -/
def requestedPagesAux (post_limit : Nat) :
    List PageResponse → List PostNode → Bool → List PageResponse
  | [], _, _ => []
  | page :: rest, all_posts, has_next_page =>
    if has_next_page ∧ all_posts.length < post_limit then
      if page.status ≠ 200 then
        [page]
      else
        page :: requestedPagesAux post_limit rest (all_posts ++ page.nodes) page.pageInfo.hasNextPage
    else
      []

/-- Pages requested by a fetch run, starting from the loop's initial state
(`all_posts = []`, `has_next_page = True`). -/
def requestedPages (post_limit : Nat) (pages : List PageResponse) : List PageResponse :=
  requestedPagesAux post_limit pages [] true

/-- The candidate set of a fetch run: `all_posts` as left by the
pagination loop (when the loop raised there is no candidate set). -/
def candidateSet (post_limit : Nat) (pages : List PageResponse) : Except Nat (List PostNode) :=
  fetchPagesLoop post_limit pages [] true

/-- Step `IdeatorWorkflow._fetch_product_hunt_data` as a whole: run the
pagination loop; on success sort the gathered posts descending by votes,
truncate at `post_limit`, build a `Product` from each survivor and send
one `ProductEvent` per product (lines 308-315).  The result is the list
of products carried by the sent `ProductEvent`s together with the error
status when the loop raised — the send loop runs only after the
pagination loop finished, so a raise sends no events at all. -/
def fetch_product_hunt_data (post_limit : Nat) (pages : List PageResponse) :
    List Product × Option Nat :=
  match fetchPagesLoop post_limit pages [] true with
  | .error s => ([], some s)
  | .ok all_posts =>
    (((sortByVotesDesc all_posts).take post_limit).map Product.ofPost, none)

/-! ## Collect barrier (`IdeatorWorkflow._collect_results`) -/

/-- One call of `IdeatorWorkflow._collect_results` on arrival of one
`FinalResultEvent`.  `ctx.collect_events(ev, [FinalResultEvent] * post_limit)`
buffers the event; when the buffer now holds `post_limit` events it
drains the buffer and returns the events in arrival order, otherwise it
returns `None` and the step emits nothing.  The result is the updated
buffer paired with the optional `StopEvent` payload. -/
def collect_results (post_limit : Nat) (buffer : List FinalResultEvent)
    (ev : FinalResultEvent) :
    List FinalResultEvent × Option (List FinalResultEvent) :=
  let buffer := buffer ++ [ev]
  if buffer.length = post_limit then ([], some buffer) else (buffer, none)

/-- Run the collect step over a sequence of arrivals starting from a given
buffer, recording the step's output at each arrival. -/
def collectRunAux (post_limit : Nat) (buffer : List FinalResultEvent) :
    List FinalResultEvent → List (Option (List FinalResultEvent))
  | [] => []
  | ev :: rest =>
    let r := collect_results post_limit buffer ev
    r.2 :: collectRunAux post_limit r.1 rest

/-- The outputs of the collect step over one run's arrival sequence,
starting from the empty per-run buffer. -/
def collectRun (post_limit : Nat) (arrivals : List FinalResultEvent) :
    List (Option (List FinalResultEvent)) :=
  collectRunAux post_limit [] arrivals

/-! ## Run-level outcome (`run_workflow` and the engine's timeout) -/

/-- Possible outcomes of one workflow run. -/
inductive RunOutcome where
  | completed (batch : List FinalResultEvent)
  | timedOut
  | neverCompletes
  deriving DecidableEq, Repr

/-- Modelled from the spec: the run loop of the third-party workflow
engine (llama-index `Workflow.run`), which is not part of this
repository's sources.  Spec section 5: "the whole run carries an optional
wall-clock timeout; on expiry the run fails as a unit - no partial-batch
delivery."  The run completes when the collect barrier
(`_collect_results`) emits its `StopEvent`; otherwise, when a timeout was
configured the run fails by expiry, and with no timeout configured there
is no expiry and the run never completes. -/
def workflowRun (timeout : Option Nat) (post_limit : Nat)
    (arrivals : List FinalResultEvent) : RunOutcome :=
  match (collectRun post_limit arrivals).filterMap id with
  | batch :: _ => .completed batch
  | [] =>
    match timeout with
    | some _ => .timedOut
    | none => .neverCompletes

/-- Task `run_workflow` (controller.py line 413) constructs the workflow
as `IdeatorWorkflow(timeout=None, verbose=False)`: the task-invoked run
carries no wall-clock timeout. -/
def runWorkflowTimeout : Option Nat := none

/-! ## Enrichment stage (`IdeatorWorkflow._process_product`) -/

/-- Method `Product._extract_landing_page_text`: `fetch_url` returns
`None` on a failed download and `extract` returns `None` on a failed
extraction; the `document` input is the combined scrape outcome.  Python
`document if document else ""` maps both `None` and the empty string to
`""`. -/
def extract_landing_page_text (document : Option String) : String :=
  match document with
  | some d => if d = "" then "" else d
  | none => ""

/-- Method `Product.generate_description`: the landing-page text (empty
on a failed scrape) goes into the prompt and the LLM's reply is stored
into `long_description`.  The LLM is an input of the model, as a function
of the landing-page text fed into the prompt. -/
def generate_description (p : Product) (document : Option String)
    (llm : String → String) : Product :=
  let landing_page_text := extract_landing_page_text document
  { p with long_description := llm landing_page_text }

/-- Parts of the product-page HTTP response that
`Product.fetch_og_image_url` reads: the status, and the `content`
attribute of the `og:image` meta tag when the parser finds such a tag
(`none` when the tag is absent). -/
structure OgPageResponse where
  status : Nat
  ogImageContent : Option String
  deriving DecidableEq, Repr

/-- Method `Product.fetch_og_image_url`: only on an HTTP 200 response
whose page has an `og:image` meta tag is `og_image_url` overwritten;
otherwise the field is left as it was (initially `""`). -/
def fetch_og_image_url (p : Product) (response : OgPageResponse) : Product :=
  if response.status = 200 then
    match response.ogImageContent with
    | some content => { p with og_image_url := content }
    | none => p
  else
    p

/-- Step `IdeatorWorkflow._process_product`: generate the description
(which scrapes the landing page), fetch the preview image, then send
exactly one `ReimagineEvent` carrying the updated product.  The result is
the list of payloads of the `ReimagineEvent`s the step sends. -/
def process_product (p : Product) (document : Option String)
    (llm : String → String) (ogResponse : OgPageResponse) : List Product :=
  let p := generate_description p document llm
  let p := fetch_og_image_url p ogResponse
  [p]

/-! ## Renderer (`generate_markdown`) -/

/-- Python `str(bool)`: `"True"` / `"False"`, capitalized. -/
def pyBool (b : Bool) : String :=
  if b then "True" else "False"

/-- Method `Product.to_markdown` (controller.py lines 159-170). -/
def Product.to_markdown (p : Product) : String :=
  let og_image_markdown := "![" ++ p.name ++ "](" ++ p.og_image_url ++ ")"
  "## [" ++ p.name ++ "](" ++ p.url ++ ")\n" ++
    "**Tagline**: " ++ p.tagline ++ "\n" ++
    "**Description**: " ++ p.long_description ++ "\n" ++
    "[View on Product Hunt](" ++ p.url ++ ")\n\n" ++
    og_image_markdown ++ "\n\n" ++
    "**Votes**: 🔺" ++ toString p.votes_count ++ "\n" ++
    "**Featured**: " ++ pyBool p.featured ++ "\n" ++
    "**Created**: " ++ p.created_at ++ "\n\n"

/-- Method `Analysis.to_markdown` (schema.py).  The trailing
`.format(proposals=proposals)` of the source is a no-op on a string with
no remaining braces (the f-string already substituted every field); the
embedding is the f-string's value. -/
def Analysis.to_markdown (a : Analysis) : String :=
  let proposals := String.intercalate "\n"
    (a.proposals.map (fun p => "- " ++ p.title ++ ": " ++ p.description))
  "\n## Product analysis:\n\n\n### Strengths:\n\n" ++ a.strengths ++
    "\n\n### Weaknesses:\n\n" ++ a.weaknesses ++
    "\n\n### Proposals\n\n" ++ proposals

/-- The on-disk path of the rendered document for a date:
`generate_markdown` (line 404) writes it and `publish_to_wordpress`
(line 423) reads it for the current UTC date. -/
def targetFileName (date : String) : String :=
  "data/producthunt-daily-" ++ date ++ ".md"

/-- Effects a renderer run can perform. -/
inductive RenderEffect where
  | makedirs (dir : String)
  | fileWrite (path content : String)
  | logInfo (message : String)
  | networkCall (url : String)
  | llmCall
  deriving DecidableEq, Repr

/-- The document contents built by `generate_markdown` (lines 396-400):
a title line, then per event the product block, the analysis block and a
separator. -/
def generate_markdown_content (post_limit : Nat)
    (events : List FinalResultEvent) (date : String) : String :=
  let header := "# ProductHunt Top " ++ toString post_limit ++ " | " ++ date ++ "\n\n"
  events.foldl
    (fun acc event =>
      acc ++ event.product.to_markdown ++ event.proposal.to_markdown ++ "---\n\n")
    header

/-- Function `generate_markdown` as an effect trace: create the data
directory, write the rendered document, log.  No network and no LLM
effect appears anywhere in its body. -/
def generate_markdown (post_limit : Nat) (events : List FinalResultEvent)
    (date : String) : List RenderEffect :=
  let file_name := targetFileName date
  [RenderEffect.makedirs "data",
   RenderEffect.fileWrite file_name (generate_markdown_content post_limit events date),
   RenderEffect.logInfo ("Created " ++ file_name ++ " file with today's Product Hunt data.")]

/-! ## Publisher (`publish_to_wordpress`) -/

/-- Split a character list at every newline (the resulting list of
pieces is always nonempty, like `str.split`). -/
def splitNlChars : List Char → List (List Char)
  | [] => [[]]
  | c :: rest =>
    if c = '\n' then [] :: splitNlChars rest
    else
      match splitNlChars rest with
      | l :: ls => (c :: l) :: ls
      | [] => [[c]]

/-- Python `str.splitlines` restricted to `\n` separators (the only line
break the renderer emits): split at every newline, but without the
trailing empty piece a trailing newline would produce
(`"a\n".splitlines() == ["a"]`, `"".splitlines() == []`). -/
def pySplitlines (s : String) : List String :=
  let parts := (splitNlChars s.data).map String.mk
  if parts.getLast? = some "" then parts.dropLast else parts

/-- Python `line.startswith("#")`: the first character is `#`. -/
def pyStartsWithHash (s : String) : Bool :=
  match s.data with
  | [] => false
  | c :: _ => c = '#'

/-- Python `os.path.basename` on the character list of a path: the part
after the last slash (faithful for paths without a trailing slash, the
only shape the publisher builds). -/
def basenameChars (path : List Char) : List Char :=
  (path.reverse.takeWhile (fun c => c ≠ '/')).reverse

/-- Python `.replace(".md", "")` on a character list: delete every
non-overlapping occurrence of `.md`, scanning left to right. -/
def stripMdChars : List Char → List Char
  | [] => []
  | [c] => [c]
  | [c1, c2] => [c1, c2]
  | c1 :: c2 :: c3 :: rest =>
    if c1 = '.' ∧ c2 = 'm' ∧ c3 = 'd' then stripMdChars rest
    else c1 :: stripMdChars (c2 :: c3 :: rest)

/-- Python `str.strip(c)` for one character: drop every copy of `c` from
both ends. -/
def pyStripChar (c : Char) (s : String) : String :=
  String.mk (((s.data.dropWhile (fun x => x = c)).reverse.dropWhile (fun x => x = c)).reverse)

/-- The spec's notion of the source filename stem, stated from the spec's
words for comparison with the code's slug derivation: the base filename
with its `.md` extension removed. -/
def specFilenameStem (file_name : String) : String :=
  let base := basenameChars file_name.data
  if ['.', 'm', 'd'] <:+ base then String.mk (base.take (base.length - 3))
  else String.mk base

/-- The pure content computation of `publish_to_wordpress` (lines
431-448): drop a leading title line when the first line starts with `#`,
rebuild the body from the remaining lines, derive the post title and the
slug.  The third-party `markdown.markdown` HTML conversion is a fixed
pure function of `content_without_title`; the embedding keeps the
converter's input (and `body_lines`, the line list it is joined from)
rather than modelling the conversion itself. -/
structure PreparedPost where
  body_lines : List String
  content_without_title : String
  title : String
  slug : String
  status : String
  categories : List Nat
  deriving DecidableEq, Repr

/-- The content computation of `publish_to_wordpress` on the file's text:
see `PreparedPost`. -/
def publish_prepare (file_name content : String) : PreparedPost :=
  let lines := pySplitlines content
  let lines :=
    match lines with
    | l0 :: rest => if pyStartsWithHash l0 then rest else l0 :: rest
    | [] => []
  let content_without_title := String.intercalate "\n" lines
  let title :=
    match pySplitlines content with
    | l0 :: _ => (pyStripChar '#' l0).trim
    | [] => ""
  let slug := String.mk (stripMdChars (basenameChars file_name.data))
  { body_lines := lines
    content_without_title := content_without_title
    title := title
    slug := slug
    status := "publish"
    categories := [337] }

/-- Effects a publisher run can perform. -/
inductive PublishEffect where
  | fileRead (path : String)
  | logError (message : String)
  | logInfo (message : String)
  | httpPost (url slug : String)
  | fileWrite (path : String)
  deriving DecidableEq, Repr

/-- The CMS's response to the publish POST: status plus body text. -/
structure CmsResponse where
  status : Nat
  text : String
  deriving DecidableEq, Repr

/-- Task `publish_to_wordpress` (controller.py lines 418-469) as an
effect trace.  The task accepts no date parameter: `today` is the current
UTC date read from the clock at execution time, `readFile` is the
filesystem (`none` models `FileNotFoundError`), and `cms` is the CMS's
response to the POST.  A missing file is logged and the task returns with
no POST; a non-201 response is logged and the raw response body is saved
to a side file. -/
def publish_to_wordpress (wordpress_url today : String)
    (readFile : String → Option String) (cms : CmsResponse) : List PublishEffect :=
  let file_name := targetFileName today
  match readFile file_name with
  | none =>
    [PublishEffect.fileRead file_name,
     PublishEffect.logError ("Error: File not found: " ++ file_name)]
  | some content =>
    let prepared := publish_prepare file_name content
    let api_url := wordpress_url ++ "/wp-json/wp/v2/posts"
    [PublishEffect.fileRead file_name, PublishEffect.httpPost api_url prepared.slug] ++
      (if cms.status = 201 then
        [PublishEffect.logInfo "Post published successfully."]
      else
        [PublishEffect.logError
          ("Failed to publish post: " ++ toString cms.status ++ ", " ++ cms.text),
         PublishEffect.fileWrite ("data/error_" ++ prepared.slug ++ ".json")])

/-- File paths a publisher run reads. -/
def publishReads (wordpress_url today : String)
    (readFile : String → Option String) (cms : CmsResponse) : List String :=
  (publish_to_wordpress wordpress_url today readFile cms).filterMap
    (fun e =>
      match e with
      | PublishEffect.fileRead p => some p
      | _ => none)

/-! ## Concrete sample values used by witnesses and counterexamples -/

/-- A concrete product. -/
def sampleProduct (nm : String) (votes : Int) : Product :=
  { name := nm, tagline := "t", description := "d", votes_count := votes,
    created_at := "2024-01-01", featured := false, website := "w", url := "u",
    topics := [], long_description := "", og_image_url := "" }

/-- A concrete analysis result. -/
def sampleAnalysis : Analysis :=
  { strengths := "s", weaknesses := "w", proposals := [] }

/-- A concrete `FinalResultEvent`. -/
def sampleEvent (nm : String) : FinalResultEvent :=
  { product := sampleProduct nm 1, proposal := sampleAnalysis }

/-- A concrete raw post node. -/
def sampleNode (nm : String) (votes : Int) : PostNode :=
  { id := nm, name := nm, tagline := "t", description := "d", votesCount := votes,
    createdAt := "2024-01-01", featuredAt := none, website := "w", url := "u",
    topics := [] }

/-! ## Collect-barrier lemmas and C1 -/

/-- One-step unfolding of `collectRunAux`. -/
lemma collectRunAux_cons (N : Nat) (buffer : List FinalResultEvent)
    (ev : FinalResultEvent) (rest : List FinalResultEvent) :
    collectRunAux N buffer (ev :: rest) =
      (collect_results N buffer ev).2 ::
        collectRunAux N (collect_results N buffer ev).1 rest := rfl

/-- The collect step does not fire while the buffer stays short of `N`. -/
lemma collect_results_nofire (N : Nat) (buffer : List FinalResultEvent)
    (ev : FinalResultEvent) (h : ¬(buffer ++ [ev]).length = N) :
    collect_results N buffer ev = (buffer ++ [ev], none) := by
  simp only [List.length_append, List.length_cons, List.length_nil] at h
  simp [collect_results, h]

/-- The collect step fires when the buffer reaches `N`. -/
lemma collect_results_fire (N : Nat) (buffer : List FinalResultEvent)
    (ev : FinalResultEvent) (h : (buffer ++ [ev]).length = N) :
    collect_results N buffer ev = ([], some (buffer ++ [ev])) := by
  simp [collect_results, h]

/-- Starting from a buffer that together with the pending arrivals holds
exactly `N` events, the collect step outputs nothing until the last
arrival and fires once there, draining everything in arrival order. -/
lemma collectRunAux_fires (N : Nat) (rest : List FinalResultEvent) :
    ∀ buffer : List FinalResultEvent, buffer.length + rest.length = N → rest ≠ [] →
      collectRunAux N buffer rest =
        List.replicate (rest.length - 1) none ++ [some (buffer ++ rest)] := by
  induction rest with
  | nil => intro buffer _ hne; exact absurd rfl hne
  | cons ev rest ih =>
    intro buffer htot _
    cases rest with
    | nil =>
      have hfire : (buffer ++ [ev]).length = N := by
        simp only [List.length_append, List.length_cons, List.length_nil] at htot ⊢
        omega
      rw [collectRunAux_cons, collect_results_fire N buffer ev hfire]
      simp [collectRunAux]
    | cons x xs =>
      have hnofire : ¬(buffer ++ [ev]).length = N := by
        simp only [List.length_append, List.length_cons, List.length_nil] at htot ⊢
        omega
      have ih2 := ih (buffer ++ [ev])
        (by simp only [List.length_append, List.length_cons, List.length_nil] at htot ⊢; omega)
        (by simp)
      rw [collectRunAux_cons, collect_results_nofire N buffer ev hnofire]
      simp only [ih2, List.length_cons]
      simp [List.replicate_succ, List.append_assoc]

/-- C1: in a run with `post_limit = N` and `N` arriving `ItemAnalyzed`
events, the collect step produces no output at each of the first `N - 1`
arrivals and emits exactly one terminal `StopEvent` at the `N`-th,
carrying all `N` (item, analysis) pairs in arrival order — never before
and never twice, whatever the arrival order was. -/
theorem collect_barrier_fires_exactly_at_nth (N : Nat)
    (arrivals : List FinalResultEvent) (hN : 1 ≤ N) (hlen : arrivals.length = N) :
    collectRun N arrivals =
      List.replicate (N - 1) (none : Option (List FinalResultEvent)) ++ [some arrivals] := by
  have hne : arrivals ≠ [] := by
    intro h
    rw [h] at hlen
    simp at hlen
    omega
  have h := collectRunAux_fires N arrivals [] (by simpa using hlen) hne
  simpa [collectRun, hlen] using h

/-- Witness for C1 at `N = 3` and a concrete arrival sequence. -/
theorem collect_barrier_fires_exactly_at_nth_witness :
    collectRun 3 [sampleEvent "a", sampleEvent "b", sampleEvent "c"] =
      List.replicate 2 (none : Option (List FinalResultEvent)) ++
        [some [sampleEvent "a", sampleEvent "b", sampleEvent "c"]] :=
  collect_barrier_fires_exactly_at_nth 3
    [sampleEvent "a", sampleEvent "b", sampleEvent "c"] (by decide) rfl

/-! ## Underfull runs and C4 -/

/-- With strictly fewer pending arrivals than the barrier needs, the
collect step never produces an output. -/
lemma collectRunAux_all_none (N : Nat) (rest : List FinalResultEvent) :
    ∀ buffer : List FinalResultEvent, buffer.length + rest.length < N →
      collectRunAux N buffer rest = List.replicate rest.length none := by
  induction rest with
  | nil => intro buffer _; simp [collectRunAux]
  | cons ev rest ih =>
    intro buffer hlt
    have hnofire : ¬(buffer ++ [ev]).length = N := by
      simp only [List.length_append, List.length_cons, List.length_nil] at hlt ⊢
      omega
    have ih2 := ih (buffer ++ [ev])
      (by simp only [List.length_append, List.length_cons, List.length_nil] at hlt ⊢; omega)
    rw [collectRunAux_cons, collect_results_nofire N buffer ev hnofire]
    simp [ih2, List.replicate_succ]

/-- Discarding `none`s from a list of `none`s leaves nothing. -/
lemma filterMap_id_replicate_none (n : Nat) :
    (List.replicate n (none : Option (List FinalResultEvent))).filterMap id = [] := by
  induction n with
  | zero => simp
  | succ n ih => simp [List.replicate_succ, ih]

/-- C4 (amended): with fewer arrivals than `post_limit` the collect
barrier never fires, so the run never delivers a (partial) batch; but
`run_workflow` constructs the workflow with `timeout=None`, so the
task-invoked run has no wall-clock expiry and never completes instead of
failing by timeout. -/
theorem underfull_run_never_delivers (N : Nat) (timeout : Option Nat)
    (arrivals : List FinalResultEvent) (hlt : arrivals.length < N) :
    (∀ o ∈ collectRun N arrivals, o = none) ∧
    (∀ batch, workflowRun timeout N arrivals ≠ RunOutcome.completed batch) ∧
    workflowRun runWorkflowTimeout N arrivals = RunOutcome.neverCompletes := by
  have hrun : collectRun N arrivals = List.replicate arrivals.length none :=
    collectRunAux_all_none N arrivals [] (by simpa using hlt)
  refine ⟨?_, ?_, ?_⟩
  · intro o ho
    rw [hrun] at ho
    exact List.eq_of_mem_replicate ho
  · intro batch
    simp only [workflowRun, hrun, filterMap_id_replicate_none]
    cases timeout <;> simp
  · simp only [workflowRun, hrun, filterMap_id_replicate_none, runWorkflowTimeout]

/-- Witness for the amended C4 at `N = 3` with a single arrival. -/
theorem underfull_run_never_delivers_witness :
    (∀ o ∈ collectRun 3 [sampleEvent "a"], o = none) ∧
    (∀ batch, workflowRun (some 5) 3 [sampleEvent "a"] ≠ RunOutcome.completed batch) ∧
    workflowRun runWorkflowTimeout 3 [sampleEvent "a"] = RunOutcome.neverCompletes :=
  underfull_run_never_delivers 3 (some 5) [sampleEvent "a"] (by decide)

/-! ## Fetch-stage lemmas and C2, C3, C5 -/

/-- Membership in a stable insertion. -/
lemma mem_insertDesc (a x : PostNode) (l : List PostNode) :
    a ∈ insertDesc x l ↔ a = x ∨ a ∈ l := by
  induction l with
  | nil => simp [insertDesc]
  | cons y ys ih =>
    by_cases h : x.votesCount < y.votesCount
    · simp only [insertDesc, if_pos h, List.mem_cons, ih]
      tauto
    · simp only [insertDesc, if_neg h, List.mem_cons]

/-- Inserting into a descending list keeps it descending. -/
lemma insertDesc_pairwise (x : PostNode) (l : List PostNode)
    (h : List.Pairwise (fun a b => b.votesCount ≤ a.votesCount) l) :
    List.Pairwise (fun a b => b.votesCount ≤ a.votesCount) (insertDesc x l) := by
  induction l with
  | nil => simp [insertDesc]
  | cons y ys ih =>
    rcases List.pairwise_cons.mp h with ⟨hy, hys⟩
    by_cases hxy : x.votesCount < y.votesCount
    · simp only [insertDesc, if_pos hxy]
      refine List.Pairwise.cons ?_ (ih hys)
      intro b hb
      rcases (mem_insertDesc b x ys).mp hb with rfl | hb
      · exact le_of_lt hxy
      · exact hy b hb
    · simp only [insertDesc, if_neg hxy]
      refine List.Pairwise.cons ?_ (List.Pairwise.cons hy hys)
      intro b hb
      rcases List.mem_cons.mp hb with rfl | hb
      · exact not_lt.mp hxy
      · exact le_trans (hy b hb) (not_lt.mp hxy)

/-- The sort's output is descending by vote count. -/
lemma sortByVotesDesc_pairwise (l : List PostNode) :
    List.Pairwise (fun a b => b.votesCount ≤ a.votesCount) (sortByVotesDesc l) := by
  induction l with
  | nil => simp [sortByVotesDesc]
  | cons x xs ih => exact insertDesc_pairwise x (sortByVotesDesc xs) ih

/-- Insertion grows the length by one. -/
lemma insertDesc_length (x : PostNode) (l : List PostNode) :
    (insertDesc x l).length = l.length + 1 := by
  induction l with
  | nil => simp [insertDesc]
  | cons y ys ih =>
    by_cases h : x.votesCount < y.votesCount
    · simp [insertDesc, if_pos h, ih]
    · simp [insertDesc, if_neg h]

/-- The sort preserves the length. -/
lemma sortByVotesDesc_length (l : List PostNode) :
    (sortByVotesDesc l).length = l.length := by
  induction l with
  | nil => rfl
  | cons x xs ih => simp [sortByVotesDesc, insertDesc_length, ih]

/-- C2: whenever the fetch run gathers a candidate set of at least
`post_limit` posts, the stage emits exactly `post_limit` `ItemReady`
events, one per item, the emitted sequence is the truncation of the
vote-descending sorted candidate set to its first `post_limit` elements,
and it is sorted by vote count in descending order. -/
theorem fetch_emits_sorted_truncated (N : Nat) (pages : List PageResponse)
    (c : List PostNode) (hok : candidateSet N pages = .ok c) (hge : N ≤ c.length) :
    (fetch_product_hunt_data N pages).1.length = N ∧
    (fetch_product_hunt_data N pages).1 =
      ((sortByVotesDesc c).take N).map Product.ofPost ∧
    List.Pairwise (fun a b => b.votes_count ≤ a.votes_count)
      (fetch_product_hunt_data N pages).1 := by
  unfold candidateSet at hok
  have hfetch : fetch_product_hunt_data N pages =
      (((sortByVotesDesc c).take N).map Product.ofPost, none) := by
    unfold fetch_product_hunt_data
    rw [hok]
  refine ⟨?_, ?_, ?_⟩
  · rw [hfetch]
    simp [sortByVotesDesc_length, Nat.min_eq_left hge]
  · rw [hfetch]
  · rw [hfetch]
    have hs := (sortByVotesDesc_pairwise c).sublist (List.take_sublist N (sortByVotesDesc c))
    simp only [List.pairwise_map]
    exact hs.imp (fun h => h)

/-- Witness for C2: a one-page run with three candidates and
`post_limit = 3`. -/
theorem fetch_emits_sorted_truncated_witness :
    ((fetch_product_hunt_data 3
        [{ status := 200,
           nodes := [sampleNode "a" 1, sampleNode "b" 2, sampleNode "c" 3],
           pageInfo := { hasNextPage := false, endCursor := "" } }]).1.length = 3) ∧
    ((fetch_product_hunt_data 3
        [{ status := 200,
           nodes := [sampleNode "a" 1, sampleNode "b" 2, sampleNode "c" 3],
           pageInfo := { hasNextPage := false, endCursor := "" } }]).1 =
      ((sortByVotesDesc [sampleNode "a" 1, sampleNode "b" 2, sampleNode "c" 3]).take 3).map
        Product.ofPost) ∧
    List.Pairwise (fun a b => b.votes_count ≤ a.votes_count)
      (fetch_product_hunt_data 3
        [{ status := 200,
           nodes := [sampleNode "a" 1, sampleNode "b" 2, sampleNode "c" 3],
           pageInfo := { hasNextPage := false, endCursor := "" } }]).1 :=
  fetch_emits_sorted_truncated 3 _ [sampleNode "a" 1, sampleNode "b" 2, sampleNode "c" 3]
    rfl (by decide)

/-- Pages of the C3 scenario: a first page with three nodes and
`hasNextPage = True`, a second page with one node and
`hasNextPage = False`.  The second page's node has the highest vote
count of all four. -/
def scenarioPages : List PageResponse :=
  [{ status := 200,
     nodes := [sampleNode "a" 1, sampleNode "b" 2, sampleNode "c" 3],
     pageInfo := { hasNextPage := true, endCursor := "cur" } },
   { status := 200, nodes := [sampleNode "d" 100],
     pageInfo := { hasNextPage := false, endCursor := "" } }]

/-- The combined four nodes of both scenario pages. -/
def scenarioCombined : List PostNode :=
  [sampleNode "a" 1, sampleNode "b" 2, sampleNode "c" 3, sampleNode "d" 100]

/-- Counterexample to C3 as stated: with `post_limit = 3` the loop stops
after the first page (three posts already reach the limit), so the second
page's top-voted node is never fetched; the three emitted items are not
the top 3 by votes out of the combined 4 nodes. -/
theorem fetch_two_pages_top3_counterexample :
    (fetch_product_hunt_data 3 scenarioPages).1.length = 3 ∧
    (fetch_product_hunt_data 3 scenarioPages).1 ≠
      ((sortByVotesDesc scenarioCombined).take 3).map Product.ofPost ∧
    Product.ofPost (sampleNode "d" 100) ∉ (fetch_product_hunt_data 3 scenarioPages).1 ∧
    requestedPages 3 scenarioPages =
      [{ status := 200,
         nodes := [sampleNode "a" 1, sampleNode "b" 2, sampleNode "c" 3],
         pageInfo := { hasNextPage := true, endCursor := "cur" } }] := by
  decide

/-- C3 (amended): if the catalog API would return two pages (first page
3 nodes with `hasNextPage` true, second page 1 node) and
`post_limit = 3`, the fetch stage requests only the first page — the
post limit is already reached — and emits exactly 3 `ItemReady` events:
the first page's 3 nodes in descending-vote order.  This holds for every
such page pair, whatever the second page contains. -/
theorem fetch_two_pages_first_page_only (n1 n2 n3 : PostNode) (cursor : String)
    (page2 : PageResponse) :
    fetch_product_hunt_data 3
        [{ status := 200, nodes := [n1, n2, n3],
           pageInfo := { hasNextPage := true, endCursor := cursor } }, page2] =
      (((sortByVotesDesc [n1, n2, n3]).take 3).map Product.ofPost, none) ∧
    (fetch_product_hunt_data 3
        [{ status := 200, nodes := [n1, n2, n3],
           pageInfo := { hasNextPage := true, endCursor := cursor } }, page2]).1.length = 3 ∧
    requestedPages 3
        [{ status := 200, nodes := [n1, n2, n3],
           pageInfo := { hasNextPage := true, endCursor := cursor } }, page2] =
      [{ status := 200, nodes := [n1, n2, n3],
         pageInfo := { hasNextPage := true, endCursor := cursor } }] := by
  refine ⟨?_, ?_, ?_⟩
  · simp [fetch_product_hunt_data, fetchPagesLoop]
  · simp [fetch_product_hunt_data, fetchPagesLoop, sortByVotesDesc_length,
      insertDesc_length]
  · simp [requestedPages, requestedPagesAux]

/-- A non-200 page among the requested ones makes the pagination loop
raise. -/
lemma fetchPagesLoop_error_of_bad_requested (N : Nat) :
    ∀ (pages : List PageResponse) (acc : List PostNode) (hn : Bool)
      (page : PageResponse),
      page ∈ requestedPagesAux N pages acc hn → page.status ≠ 200 →
      ∃ s, fetchPagesLoop N pages acc hn = .error s := by
  intro pages
  induction pages with
  | nil => intro acc hn page hmem _; simp [requestedPagesAux] at hmem
  | cons p rest ih =>
    intro acc hn page hmem hbad
    by_cases hcond : hn = true ∧ acc.length < N
    · by_cases hp : p.status ≠ 200
      · exact ⟨p.status, by simp only [fetchPagesLoop, if_pos hcond, if_pos hp]⟩
      · simp only [requestedPagesAux, if_pos hcond, if_neg hp, List.mem_cons] at hmem
        rcases hmem with rfl | hmem
        · exact absurd hbad hp
        · obtain ⟨s, hs⟩ := ih (acc ++ p.nodes) p.pageInfo.hasNextPage page hmem hbad
          exact ⟨s, by simp only [fetchPagesLoop, if_pos hcond, if_neg hp]; exact hs⟩
    · simp only [requestedPagesAux, if_neg hcond] at hmem
      simp at hmem

/-- C5: if the bearer-token exchange returns a non-success status the
token step raises, and if any catalog page the run actually requests
returns a non-200 status the fetch step raises and the run emits no
`ItemReady` event at all. -/
theorem non200_aborts_with_no_partial_output (tok : TokenResponse)
    (htok : tok.status ≠ 200) (N : Nat) (pages : List PageResponse)
    (page : PageResponse) (hreq : page ∈ requestedPages N pages)
    (hbad : page.status ≠ 200) :
    (∃ e, get_producthunt_token tok = .error e) ∧
    (∃ s, (fetch_product_hunt_data N pages).2 = some s) ∧
    (fetch_product_hunt_data N pages).1 = [] := by
  refine ⟨?_, ?_⟩
  · simp only [get_producthunt_token, if_pos htok]
    exact ⟨_, rfl⟩
  · obtain ⟨s, hs⟩ :=
      fetchPagesLoop_error_of_bad_requested N pages [] true page hreq hbad
    unfold fetch_product_hunt_data
    rw [hs]
    exact ⟨⟨s, rfl⟩, rfl⟩

/-- Witness for C5: a 401 token exchange and a run whose first (and only
requested) page answers 500. -/
theorem non200_aborts_with_no_partial_output_witness :
    (∃ e, get_producthunt_token { status := 401, text := "denied", access_token := none } =
      .error e) ∧
    (∃ s, (fetch_product_hunt_data 3
      [{ status := 500, nodes := [],
         pageInfo := { hasNextPage := false, endCursor := "" } }]).2 = some s) ∧
    (fetch_product_hunt_data 3
      [{ status := 500, nodes := [],
         pageInfo := { hasNextPage := false, endCursor := "" } }]).1 = [] :=
  non200_aborts_with_no_partial_output
    { status := 401, text := "denied", access_token := none } (by decide) 3
    [{ status := 500, nodes := [],
       pageInfo := { hasNextPage := false, endCursor := "" } }]
    { status := 500, nodes := [],
      pageInfo := { hasNextPage := false, endCursor := "" } }
    (by decide) (by decide)

/-- Counterexample to C4 as stated: the task `run_workflow` passes
`timeout=None`, so on an underfull date the task-invoked run does not
fail by timeout expiry — it never completes at all. -/
theorem run_workflow_timeout_counterexample :
    runWorkflowTimeout = none ∧
    workflowRun runWorkflowTimeout 3 [sampleEvent "a", sampleEvent "b"] =
      RunOutcome.neverCompletes ∧
    workflowRun runWorkflowTimeout 3 [sampleEvent "a", sampleEvent "b"] ≠
      RunOutcome.timedOut := by
  decide

/-! ## Enrichment-stage theorems: C6 -/

/-- C6: a failed landing-page scrape and a failed preview-image fetch are
stage-local: the scraped text defaults to the empty string, the
preview-image field stays the empty string (in particular on an HTTP 404
response or a page without an `og:image` tag), and the enrichment stage
still emits exactly one `ItemEnriched` event for the item. -/
theorem enrichment_failures_are_stage_local (p : Product) (llm : String → String)
    (og : OgPageResponse) (hp : p.og_image_url = "")
    (hog : og.status = 404 ∨ og.ogImageContent = none) :
    extract_landing_page_text none = "" ∧
    (process_product p none llm og).length = 1 ∧
    ∀ q ∈ process_product p none llm og, q.og_image_url = "" := by
  refine ⟨rfl, rfl, ?_⟩
  intro q hq
  have hq2 : q = fetch_og_image_url (generate_description p none llm) og := by
    simpa [process_product] using hq
  subst hq2
  rcases hog with h404 | hnone
  · simp [fetch_og_image_url, h404, generate_description, hp]
  · simp [fetch_og_image_url, hnone, generate_description, hp]

/-- Witness for C6: a fresh product, a failed scrape and a 404 preview
fetch. -/
theorem enrichment_failures_are_stage_local_witness :
    extract_landing_page_text none = "" ∧
    (process_product (sampleProduct "x" 1) none (fun t => t ++ "!")
      { status := 404, ogImageContent := none }).length = 1 ∧
    ∀ q ∈ process_product (sampleProduct "x" 1) none (fun t => t ++ "!")
      { status := 404, ogImageContent := none }, q.og_image_url = "" :=
  enrichment_failures_are_stage_local (sampleProduct "x" 1) (fun t => t ++ "!")
    { status := 404, ogImageContent := none } rfl (Or.inl rfl)

/-! ## Renderer theorems: C7 -/

/-- C7: the renderer is deterministic and pure — identical (batch, date)
inputs produce byte-identical document contents, and the renderer's
effect trace contains no network call and no LLM call. -/
theorem renderer_deterministic_and_pure (post_limit : Nat)
    (events1 events2 : List FinalResultEvent) (date1 date2 : String)
    (hev : events1 = events2) (hd : date1 = date2) :
    generate_markdown_content post_limit events1 date1 =
      generate_markdown_content post_limit events2 date2 ∧
    ∀ eff ∈ generate_markdown post_limit events1 date1,
      (∀ url, eff ≠ RenderEffect.networkCall url) ∧ eff ≠ RenderEffect.llmCall := by
  subst hev
  subst hd
  refine ⟨rfl, ?_⟩
  intro eff heff
  simp only [generate_markdown, List.mem_cons, List.not_mem_nil, or_false] at heff
  rcases heff with rfl | rfl | rfl
  · exact ⟨fun url => by simp, by simp⟩
  · exact ⟨fun url => by simp, by simp⟩
  · exact ⟨fun url => by simp, by simp⟩

/-- Witness for C7 at a concrete batch and date. -/
theorem renderer_deterministic_and_pure_witness :
    generate_markdown_content 3 [sampleEvent "a"] "2024-01-01" =
      generate_markdown_content 3 [sampleEvent "a"] "2024-01-01" ∧
    ∀ eff ∈ generate_markdown 3 [sampleEvent "a"] "2024-01-01",
      (∀ url, eff ≠ RenderEffect.networkCall url) ∧ eff ≠ RenderEffect.llmCall :=
  renderer_deterministic_and_pure 3 [sampleEvent "a"] [sampleEvent "a"]
    "2024-01-01" "2024-01-01" rfl rfl

/-! ## Publisher lemmas and C8, C9, C10 -/

/-- Characters satisfying the predicate pass `takeWhile` up to the first
failing one. -/
lemma takeWhile_append_stop (p : Char → Bool) (xs : List Char) (y : Char)
    (ys : List Char) (hxs : ∀ x ∈ xs, p x = true) (hy : p y = false) :
    (xs ++ y :: ys).takeWhile p = xs := by
  induction xs with
  | nil => simp [List.takeWhile_cons, hy]
  | cons a as ih =>
    have ha : p a = true := hxs a (by simp)
    have ih2 := ih (fun x hx => hxs x (by simp [hx]))
    simp [List.takeWhile_cons, ha, ih2]

/-- Basename of a path of the shape `pre ++ "/" ++ tail` with a
slash-free tail. -/
lemma basenameChars_eq (pre tail : List Char) (htail : ∀ c ∈ tail, c ≠ '/') :
    basenameChars (pre ++ '/' :: tail) = tail := by
  unfold basenameChars
  have hrev : (pre ++ '/' :: tail).reverse = tail.reverse ++ '/' :: pre.reverse := by
    simp [List.reverse_append]
  rw [hrev, takeWhile_append_stop _ tail.reverse '/' pre.reverse
    (fun x hx => by
      have := htail x (List.mem_reverse.mp hx)
      simpa using this)
    (by simp)]
  simp

/-- With no dot in the left part, `.md`-stripping passes over it. -/
lemma stripMdChars_cons_of_ne (c : Char) (rest : List Char) (hc : c ≠ '.') :
    stripMdChars (c :: rest) = c :: stripMdChars rest := by
  match rest with
  | [] => rfl
  | [c2] => rfl
  | c2 :: c3 :: rest3 =>
    have : ¬(c = '.' ∧ c2 = 'm' ∧ c3 = 'd') := by
      intro h
      exact hc h.1
    simp [stripMdChars, this]

/-- Stripping distributes over an append whose left part has no dot. -/
lemma stripMdChars_append_of_no_dot (l m : List Char) (hl : ∀ c ∈ l, c ≠ '.') :
    stripMdChars (l ++ m) = l ++ stripMdChars m := by
  induction l with
  | nil => simp
  | cons c cs ih =>
    have hc : c ≠ '.' := hl c (by simp)
    have ih2 := ih (fun x hx => hl x (by simp [hx]))
    simp only [List.cons_append, stripMdChars_cons_of_ne c (cs ++ m) hc, ih2]

/-- Python `.replace(".md", "")` on a dot-free name followed by the
`.md` extension deletes exactly the extension. -/
lemma stripMdChars_strips_extension (l : List Char) (hl : ∀ c ∈ l, c ≠ '.') :
    stripMdChars (l ++ ['.', 'm', 'd']) = l := by
  rw [stripMdChars_append_of_no_dot l _ hl]
  simp [stripMdChars]

/-- A date of digits and dashes contains neither a slash nor a dot. -/
lemma date_chars_safe (date : String) (hdate : ∀ c ∈ date.data, c.isDigit ∨ c = '-') :
    (∀ c ∈ date.data, c ≠ '/') ∧ ∀ c ∈ date.data, c ≠ '.' := by
  constructor <;> intro c hc heq <;> rcases hdate c hc with hd | hd <;> subst heq <;>
    simp_all

/-- The fixed filename pieces around the date contain no slash and no
dot. -/
lemma fixed_pieces_safe :
    (∀ c ∈ "producthunt-daily-".data, c ≠ '/' ∧ c ≠ '.') ∧
    ∀ c ∈ ['.', 'm', 'd'], c ≠ '/' := by
  decide

/-- The basename of the rendered-document path for a digits-and-dashes
date. -/
lemma basename_targetFileName (date : String)
    (hdate : ∀ c ∈ date.data, c.isDigit ∨ c = '-') :
    basenameChars (targetFileName date).data =
      ("producthunt-daily-".data ++ date.data) ++ ['.', 'm', 'd'] := by
  have hdata : (targetFileName date).data =
      "data".data ++ '/' :: (("producthunt-daily-".data ++ date.data) ++ ['.', 'm', 'd']) := by
    unfold targetFileName
    rw [String.data_append, String.data_append]
    have hpre : "data/producthunt-daily-".data =
        "data".data ++ '/' :: "producthunt-daily-".data := by decide
    rw [hpre]
    simp [List.append_assoc]
  rw [hdata]
  refine basenameChars_eq _ _ ?_
  intro c hc
  rcases List.mem_append.mp hc with hc | hc
  · rcases List.mem_append.mp hc with hc | hc
    · exact (fixed_pieces_safe.1 c hc).1
    · exact (date_chars_safe date hdate).1 c hc
  · exact fixed_pieces_safe.2 c hc

/-- The slug the publisher derives for a digits-and-dashes date. -/
lemma publisher_slug_eq (file_name content : String) (date : String)
    (hfn : file_name = targetFileName date)
    (hdate : ∀ c ∈ date.data, c.isDigit ∨ c = '-') :
    (publish_prepare file_name content).slug = "producthunt-daily-" ++ date := by
  subst hfn
  have hbase := basename_targetFileName date hdate
  have hnodot : ∀ c ∈ "producthunt-daily-".data ++ date.data, c ≠ '.' := by
    intro c hc
    rcases List.mem_append.mp hc with hc | hc
    · exact (fixed_pieces_safe.1 c hc).2
    · exact (date_chars_safe date hdate).2 c hc
  have hslug : (publish_prepare (targetFileName date) content).slug =
      String.mk (stripMdChars (basenameChars (targetFileName date).data)) := rfl
  rw [hslug, hbase, stripMdChars_strips_extension _ hnodot]
  apply String.ext
  rw [String.data_append]

/-- C9: when the rendered document for the target date is missing on
disk, the publisher returns normally with just a not-found log entry and
performs no HTTP request to the CMS. -/
theorem publish_missing_file_is_logged_noop (wordpress_url today : String)
    (readFile : String → Option String) (cms : CmsResponse)
    (hmiss : readFile (targetFileName today) = none) :
    publish_to_wordpress wordpress_url today readFile cms =
      [PublishEffect.fileRead (targetFileName today),
       PublishEffect.logError ("Error: File not found: " ++ targetFileName today)] ∧
    ∀ u s, PublishEffect.httpPost u s ∉
      publish_to_wordpress wordpress_url today readFile cms := by
  have h : publish_to_wordpress wordpress_url today readFile cms =
      [PublishEffect.fileRead (targetFileName today),
       PublishEffect.logError ("Error: File not found: " ++ targetFileName today)] := by
    simp only [publish_to_wordpress]
    rw [hmiss]
  refine ⟨h, ?_⟩
  intro u s hmem
  rw [h] at hmem
  simp at hmem

/-- Witness for C9 on an empty filesystem. -/
theorem publish_missing_file_is_logged_noop_witness :
    publish_to_wordpress "http://wp" "2024-01-02" (fun _ => none) { status := 201, text := "" } =
      [PublishEffect.fileRead (targetFileName "2024-01-02"),
       PublishEffect.logError ("Error: File not found: " ++ targetFileName "2024-01-02")] ∧
    ∀ u s, PublishEffect.httpPost u s ∉
      publish_to_wordpress "http://wp" "2024-01-02" (fun _ => none) { status := 201, text := "" } :=
  publish_missing_file_is_logged_noop "http://wp" "2024-01-02" (fun _ => none)
    { status := 201, text := "" } rfl

/-- The date-keyed rendered-document path map is injective. -/
lemma targetFileName_inj (d1 d2 : String) (h : targetFileName d1 = targetFileName d2) :
    d1 = d2 := by
  unfold targetFileName at h
  have h2 : "data/producthunt-daily-".data ++ (d1.data ++ ".md".data) =
      "data/producthunt-daily-".data ++ (d2.data ++ ".md".data) := by
    have h1 := congrArg String.data h
    simpa [String.data_append, List.append_assoc] using h1
  have h3 := List.append_cancel_left h2
  have h4 := List.append_cancel_right h3
  exact String.ext h4

/-- C10: the publisher accepts no date parameter — on every invocation
the only file it reads is the one derived from the current UTC date
(`today`), and by injectivity of the date-keyed path map that file is
never the rendered document of any other date `d`. -/
theorem publisher_reads_only_todays_file (wordpress_url today : String)
    (readFile : String → Option String) (cms : CmsResponse) (d : String)
    (hne : d ≠ today) :
    publishReads wordpress_url today readFile cms = [targetFileName today] ∧
    targetFileName d ∉ publishReads wordpress_url today readFile cms := by
  have hreads : publishReads wordpress_url today readFile cms = [targetFileName today] := by
    simp only [publishReads, publish_to_wordpress]
    rcases hrf : readFile (targetFileName today) with _ | content
    · simp [hrf]
    · simp only [hrf, List.cons_append, List.nil_append, List.filterMap_cons]
      split <;> simp
  refine ⟨hreads, ?_⟩
  rw [hreads]
  simp only [List.mem_singleton]
  intro heq
  exact hne (targetFileName_inj d today heq)

/-- Witness for C10: a run on 2024-01-02 never touches the 2024-01-01
document. -/
theorem publisher_reads_only_todays_file_witness :
    publishReads "http://wp" "2024-01-02" (fun _ => none) { status := 201, text := "" } =
      [targetFileName "2024-01-02"] ∧
    targetFileName "2024-01-01" ∉
      publishReads "http://wp" "2024-01-02" (fun _ => none) { status := 201, text := "" } :=
  publisher_reads_only_todays_file "http://wp" "2024-01-02" (fun _ => none)
    { status := 201, text := "" } "2024-01-01" (by decide)

/-- C8: for a rendered document whose first line is a markdown title
(`# Title Text`), the publisher drops exactly that first line from the
line list handed to the HTML converter (so the produced HTML body
excludes the title line), and the slug sent in the publish request equals
the source filename stem — the basename with its `.md` extension
removed. -/
theorem publisher_title_stripped_and_slug_stem (date content : String)
    (hdate : ∀ c ∈ date.data, c.isDigit ∨ c = '-') (l0 : String)
    (restl : List String) (hsplit : pySplitlines content = l0 :: restl)
    (hl0 : pyStartsWithHash l0) :
    (publish_prepare (targetFileName date) content).body_lines = restl ∧
    (publish_prepare (targetFileName date) content).content_without_title =
      String.intercalate "\n" restl ∧
    (publish_prepare (targetFileName date) content).slug =
      specFilenameStem (targetFileName date) ∧
    (publish_prepare (targetFileName date) content).slug =
      "producthunt-daily-" ++ date := by
  have hbody : (publish_prepare (targetFileName date) content).body_lines = restl := by
    simp [publish_prepare, hsplit, hl0]
  have hslug := publisher_slug_eq (targetFileName date) content date rfl hdate
  have hstem : specFilenameStem (targetFileName date) = "producthunt-daily-" ++ date := by
    unfold specFilenameStem
    rw [basename_targetFileName date hdate]
    have hsuf : ['.', 'm', 'd'] <:+ ("producthunt-daily-".data ++ date.data) ++ ['.', 'm', 'd'] :=
      ⟨_, rfl⟩
    rw [if_pos hsuf]
    apply String.ext
    have hlen : (("producthunt-daily-".data ++ date.data) ++ ['.', 'm', 'd']).length - 3 =
        ("producthunt-daily-".data ++ date.data).length := by
      simp
    rw [hlen, List.take_left, String.data_append]
  refine ⟨hbody, ?_, hslug.trans hstem.symm, hslug⟩
  simp [publish_prepare, hsplit, hl0]

/-- Witness for C8 on a concrete date and document. -/
theorem publisher_title_stripped_and_slug_stem_witness :
    (publish_prepare (targetFileName "2024-01-01")
      "# ProductHunt Top 3 | 2024-01-01\n\nbody").body_lines = ["", "body"] ∧
    (publish_prepare (targetFileName "2024-01-01")
      "# ProductHunt Top 3 | 2024-01-01\n\nbody").content_without_title =
      String.intercalate "\n" ["", "body"] ∧
    (publish_prepare (targetFileName "2024-01-01")
      "# ProductHunt Top 3 | 2024-01-01\n\nbody").slug =
      specFilenameStem (targetFileName "2024-01-01") ∧
    (publish_prepare (targetFileName "2024-01-01")
      "# ProductHunt Top 3 | 2024-01-01\n\nbody").slug =
      "producthunt-daily-" ++ "2024-01-01" :=
  publisher_title_stripped_and_slug_stem "2024-01-01"
    "# ProductHunt Top 3 | 2024-01-01\n\nbody" (by decide)
    "# ProductHunt Top 3 | 2024-01-01" ["", "body"] (by decide) (by decide)

end Ideator
